import Mathlib

/-!
Shallow embedding of `merge_sources.py`, a command-line tool that merges
source/text files beneath a directory tree into one annotated document.

Modelling conventions:
* A filesystem path is a list of name components, anchored at the
  filesystem root (`pathStr` renders it in POSIX form, e.g. `/a/b.py`).
* A filesystem snapshot is a list of entries (path plus directory flag);
  `Path.rglob("*")` is modelled as selecting the entries strictly below
  the scan root, in the (environment-dependent) order of the list.
* Python's `list.sort(key=...)` is a stable sort; a stable sort's output
  is uniquely determined by the key order and the input order, so it is
  embedded as a structurally recursive stable insertion sort.
* `str.lower` is modelled on ASCII (all names in the tool's fixed
  configuration are ASCII); string comparison is by code point, as in
  Python.
* Reading a file is an oracle `PyPath → ReadResult`: `read_text` either
  returns decoded text (`errors="replace"` never raises a decode error,
  see `read_text_replace`) or raises some other `OSError`, modelled as
  `ReadResult.err` carrying the message used by the `except` branch.
* `unlink` of the pre-existing output file sits in a `try/except: pass`;
  whether the deletion succeeds is the oracle flag `unlinkOk`.
-/

namespace MergeSources

/-- A filesystem path as its list of name components below `/`. -/
abbrev PyPath := List String

/-- The final component of a path; `Path("/").name` is `""`. -/
def pathName (p : PyPath) : String := p.getLastD ""

/-- Index of the last `'.'` in a list of characters, as `str.rfind`. -/
def rfindDot (cs : List Char) : Option Nat :=
  ((List.range cs.length).filter (fun i => cs.getD i ' ' = '.')).getLast?

/-- The extension of a filename, as `pathlib.PurePath.suffix`: the part
from the last dot on, provided that dot is neither the first nor the
last character; otherwise `""`. -/
def pySuffix (name : String) : String :=
  let cs := name.data
  match rfindDot cs with
  | none => ""
  | some i => if 0 < i ∧ i < cs.length - 1 then String.mk (cs.drop i) else ""

/-- ASCII lowercasing of one character, as `str.lower` on ASCII input. -/
def lowerChar (c : Char) : Char :=
  if 'A' ≤ c ∧ c ≤ 'Z' then Char.ofNat (c.toNat + 32) else c

/-- ASCII lowercasing of a string. -/
def lowerStr (s : String) : String := String.mk (s.data.map lowerChar)

/-- `WHITELIST_EXTS` from the source: extensions whose files are merged. -/
def WHITELIST_EXTS : List String :=
  [".c", ".h", ".hpp", ".hh", ".hxx", ".ipp",
   ".cpp", ".cc", ".cxx", ".inl", ".ixx",
   ".cs", ".java", ".kt",
   ".ts", ".tsx", ".js", ".jsx",
   ".py", ".rs", ".go", ".swift",
   ".m", ".mm", ".lua", ".sh", ".bat", ".ps1",
   ".cmake", ".proto", ".sql",
   ".yml", ".yaml", ".toml", ".ini", ".cfg", ".conf",
   ".txt", ".md", ".json", ".csv",
   ".f90", ".f95", ".f03", ".f08", ".for", ".f", ".ftn",
   ".asm", ".s",
   ".vert", ".frag", ".glsl", ".hlsl", ".metal",
   ".make"]

/-- `WHITELIST_BARE_NAMES` from the source: exact filenames always merged. -/
def WHITELIST_BARE_NAMES : List String := ["Makefile", "CMakeLists.txt"]

/-- `EXCLUDE_DIRS` from the source: directory names that disqualify files. -/
def EXCLUDE_DIRS : List String :=
  [".git", ".hg", ".svn", ".idea", ".vscode", ".vs",
   "node_modules", "dist", "out", "build", "target", "bin", "obj",
   "__pycache__", ".venv", "venv", ".mypy_cache", ".pytest_cache",
   "DerivedData", "Pods"]

/-- `OUTPUT_FILENAME` from the source: the default output filename. -/
def OUTPUT_FILENAME : String := "document.txt"

/-- `is_allowed_file`: the name is a whitelisted bare name, or the
lowercased extension is a whitelisted extension. -/
def is_allowed_file (p : PyPath) : Bool :=
  if pathName p ∈ WHITELIST_BARE_NAMES then true
  else lowerStr (pySuffix (pathName p)) ∈ WHITELIST_EXTS

/-- `should_skip_dir`: the directory's name is in `EXCLUDE_DIRS`. -/
def should_skip_dir (p : PyPath) : Bool := pathName p ∈ EXCLUDE_DIRS

/-- One filesystem entry: its path and whether it is a directory. -/
structure FSEntry where
  path : PyPath
  isDir : Bool
deriving DecidableEq, Repr

/-- A filesystem snapshot: the entries, in traversal order. -/
abbrev FS := List FSEntry

/-- `p.parents` as in pathlib: every proper initial segment of the path
(up to and including the filesystem root `[]`). -/
def pyParents (p : PyPath) : List PyPath :=
  (List.range p.length).map (fun k => p.take k)

/-- Decidable test that `root` is an initial segment of `p`. -/
def pathUnder (root p : PyPath) : Bool := p.take root.length == root

/-- `root.rglob("*")`: the snapshot's entries strictly below `root`. -/
def rglob (fs : FS) (root : PyPath) : List FSEntry :=
  fs.filter (fun e => pathUnder root e.path && !(e.path == root))

/-- The skip test of `iter_source_files`:
`any(should_skip_dir(parent) for parent in p.parents if parent != root)`. -/
def excludedByParents (root : PyPath) (p : PyPath) : Bool :=
  (pyParents p).any (fun par => !(par == root) && should_skip_dir par)

/-- POSIX rendering of an absolute path, as `str(path)`. -/
def pathStr (p : PyPath) : String := "/" ++ String.intercalate "/" p

/-- The sort key `str(x).lower()`. -/
def sortKey (p : PyPath) : String := lowerStr (pathStr p)

/-- Code-point lexicographic `≤` on character lists, as Python string
comparison. -/
def charListLe : List Char → List Char → Bool
  | [], _ => true
  | _ :: _, [] => false
  | a :: as, b :: bs =>
    if a.toNat = b.toNat then charListLe as bs else decide (a.toNat < b.toNat)

/-- Entry comparison used by the sort: keys compared as Python strings. -/
def keyLe (a b : FSEntry) : Bool :=
  charListLe (sortKey a.path).data (sortKey b.path).data

/-- Stable insertion of `x` into a sorted list: `x` goes before the first
element it is not `le`-above, hence after earlier-inserted equals. -/
def insertStable (le : FSEntry → FSEntry → Bool) (x : FSEntry) :
    List FSEntry → List FSEntry
  | [] => [x]
  | b :: bs => if le x b then x :: b :: bs else b :: insertStable le x bs

/-- Stable sort (insertion sort), the unique stable sort for `le`; this is
the function Python's stable `list.sort` computes. -/
def stableSort (le : FSEntry → FSEntry → Bool) : List FSEntry → List FSEntry
  | [] => []
  | x :: xs => insertStable le x (stableSort le xs)

/-- `iter_source_files`: walk everything under `root`, drop directories,
drop entries with an excluded parent name (root exempt), keep allowed
files, and sort by lowercased full path. -/
def iter_source_files (fs : FS) (root : PyPath) : List FSEntry :=
  let files := (rglob fs root).filter (fun e =>
    !e.isDir && !excludedByParents root e.path && is_allowed_file e.path)
  stableSort keyLe files

/-- Outcome of `f.read_text(...)`: decoded text, or a raised error whose
message fills the `<<ERROR READING FILE: ...>>` placeholder. -/
inductive ReadResult where
  | ok (text : String)
  | err (msg : String)
deriving DecidableEq, Repr

/-- The `text` variable of the merge loop: the decoded content, or the
literal diagnostic string built in the `except` branch. -/
def entryText (read : PyPath → ReadResult) (p : PyPath) : String :=
  match read p with
  | .ok t => t
  | .err e => "<<ERROR READING FILE: " ++ e ++ ">>"

/-- ASCII whitespace, as stripped by `str.rstrip()` (ASCII model). -/
def pyIsSpace (c : Char) : Bool :=
  c = ' ' || c = '\t' || c = '\n' || c = '\x0d' || c = '\x0b' || c = '\x0c'

/-- `str.rstrip()`: remove trailing whitespace characters. -/
def rstrip (s : String) : String :=
  String.mk ((s.data.reverse.dropWhile pyIsSpace).reverse)

/-- `p.relative_to(root).as_posix()`: defined when `root` is an initial
segment of `p` (`"."` when equal), otherwise a raised `ValueError`,
modelled as `none`. -/
def relative_to_posix (p root : PyPath) : Option String :=
  if pathUnder root p then
    if p == root then some "."
    else some (String.intercalate "/" (p.drop root.length))
  else none

/-- The bytes written for one entry of the merge loop: header line,
blank line, right-stripped content, one newline. (`none` when
`relative_to` raises.) -/
def entryBlock (root : PyPath) (read : PyPath → ReadResult) (p : PyPath) :
    Option String :=
  (relative_to_posix p root).map
    (fun rel => "-- " ++ rel ++ "\n\n" ++ rstrip (entryText read p) ++ "\n")

/-- `write_merged`: the full text written to the output file, as the loop
produces it — each entry's block, with one extra newline after every
entry except the last. `none` models an uncaught `ValueError` from
`relative_to`. -/
def write_merged (root : PyPath) (read : PyPath → ReadResult) :
    List PyPath → Option String
  | [] => some ""
  | [f] => entryBlock root read f
  | f :: g :: rest => do
    let b ← entryBlock root read f
    let r ← write_merged root read (g :: rest)
    pure (b ++ "\n" ++ r)

/-- The Unicode replacement character inserted by `errors="replace"`. -/
def REPLACEMENT_CHAR : Char := '�'

/-- Decoding under `errors="replace"`: the file's content is a sequence
of decoded units where `none` marks an undecodable byte sequence; each
`none` becomes the replacement character and decoding never fails. -/
def decode_replace (units : List (Option Char)) : String :=
  String.mk (units.map (fun b => b.getD REPLACEMENT_CHAR))

/-- `read_text(encoding="utf-8", errors="replace")` on decoded units:
always succeeds. -/
def read_text_replace (units : List (Option Char)) : ReadResult :=
  .ok (decode_replace units)

/-- The command line as handed to `argparse`: whether `-a` was given, the
value of `-d` if given, the value of `-o` if given. -/
structure CLIInput where
  allFlag : Bool
  dirName : Option String
  output : Option String
deriving DecidableEq, Repr

/-- The parsed namespace: `args.all`, `args.dir_name`, `args.output`. -/
structure Args where
  all : Bool
  dir_name : Option String
  output : String
deriving DecidableEq, Repr

/-- `parser.parse_args()` with a required mutually exclusive group
`{-a, -d}` and optional `-o` (default `OUTPUT_FILENAME`): giving both of
`-a`/`-d` or neither is a usage error that aborts before any filesystem
action. -/
def parse_args (ci : CLIInput) : Except String Args :=
  if ci.allFlag && ci.dirName.isSome then
    .error "usage: argument -d/--dir: not allowed with argument -a/--all"
  else if !ci.allFlag && !ci.dirName.isSome then
    .error "usage: one of the arguments -a/--all -d/--dir is required"
  else
    .ok { all := ci.allFlag, dir_name := ci.dirName,
          output := ci.output.getD OUTPUT_FILENAME }

/-- Test for a directory entry at `p`, as `p.exists() and p.is_dir()`. -/
def existsDir (fs : FS) (p : PyPath) : Bool :=
  fs.any (fun e => e.path == p && e.isDir)

/-- Test for any entry at `p`, as `p.exists()`. -/
def existsAny (fs : FS) (p : PyPath) : Bool := fs.any (fun e => e.path == p)

/-- `p.unlink()`: remove the entry at `p` from the snapshot. -/
def unlinkPath (fs : FS) (p : PyPath) : FS :=
  fs.filter (fun e => !(e.path == p))

/-- What a successful run yields: the `files` list (the FileEntry paths,
in merge order), the document content written, and the summary line
printed. -/
structure RunOutput where
  merged : List PyPath
  doc : String
  summary : String
deriving DecidableEq, Repr

/-- Root resolution of `main()`: with `-a` the tool's own directory; with
`-d NAME` the joined path, failing with the `[에러]` message when it does
not exist as a directory. -/
def resolveRoot (fs : FS) (scriptDir : PyPath) (args : Args) :
    Except String PyPath :=
  if args.all then .ok scriptDir
  else if existsDir fs (scriptDir ++ [args.dir_name.getD ""]) then
    .ok (scriptDir ++ [args.dir_name.getD ""])
  else
    .error ("[에러] 디렉토리를 찾을 수 없습니다: "
      ++ pathStr (scriptDir ++ [args.dir_name.getD ""]))

/-- The filesystem after `main()` writes the output: the written file
(as a file entry at `out_path`) replaces whatever entry was there. -/
def afterWrite (fs1 : FS) (out_path : PyPath) : FS :=
  unlinkPath fs1 out_path ++ [⟨out_path, false⟩]

/-- The tail of `main()` once the root is resolved: best-effort unlink of
a pre-existing output file (`unlinkOk` tells whether the swallowed
`unlink` succeeded), then scan, write, and report. -/
def runWithRoot (fs : FS) (out_path root : PyPath)
    (read : PyPath → ReadResult) (unlinkOk : Bool) :
    FS × Except String RunOutput :=
  let fs1 :=
    if existsAny fs out_path && unlinkOk then unlinkPath fs out_path
    else fs
  let files := (iter_source_files fs1 root).map FSEntry.path
  match write_merged root read files with
  | none => (fs1, .error "ValueError: path is not relative to root")
  | some doc =>
    (afterWrite fs1 out_path,
     .ok { merged := files, doc := doc,
           summary := "[완료] " ++ toString files.length
             ++ "개 파일을 병합했습니다 -> " ++ pathStr out_path })

/-- `main()`: parse arguments, resolve the root, then run. Returns the
filesystem after the run and either the fatal error or the run's
output. -/
def mainRun (fs : FS) (scriptDir : PyPath) (ci : CLIInput)
    (read : PyPath → ReadResult) (unlinkOk : Bool) :
    FS × Except String RunOutput :=
  match parse_args ci with
  | .error e => (fs, .error e)
  | .ok args =>
    match resolveRoot fs scriptDir args with
    | .error e => (fs, .error e)
    | .ok root => runWithRoot fs (scriptDir ++ [args.output]) root read unlinkOk

/-- Join a list of strings with a separator between consecutive items. -/
def joinSep (sep : String) : List String → String
  | [] => ""
  | [a] => a
  | a :: b :: rest => a ++ sep ++ joinSep sep (b :: rest)

/-- The block of bytes one entry contributes to the output document:
header line, blank line, right-stripped content, newline. -/
def blockStr (root : PyPath) (read : PyPath → ReadResult) (f : PyPath) :
    String :=
  "-- " ++ ((relative_to_posix f root).getD "") ++ "\n\n"
    ++ rstrip (entryText read f) ++ "\n"

/-- Selection criterion exactly as claim C1 states it: the entry is a
file of the snapshot under the root that passes the allowlist test, and
no directory name strictly between the file and the root — the root
itself exempt, and directories above the root never consulted — is in
`EXCLUDE_DIRS`. -/
def claimSelected (fs : FS) (root : PyPath) (e : FSEntry) : Bool :=
  decide (e ∈ fs) && pathUnder root e.path && !(e.path == root) && !e.isDir
    && ((pyParents e.path).all fun par =>
          !(pathUnder root par && !(par == root)) || !should_skip_dir par)
    && is_allowed_file e.path

/-! Helper lemmas about the sort. -/

theorem mem_insertStable (le : FSEntry → FSEntry → Bool) (x a : FSEntry)
    (l : List FSEntry) : a ∈ insertStable le x l ↔ a = x ∨ a ∈ l := by
  induction l with
  | nil => simp [insertStable]
  | cons b bs ih =>
    simp only [insertStable]
    split
    · simp [List.mem_cons]
    · simp only [List.mem_cons, ih]
      tauto

theorem mem_stableSort (le : FSEntry → FSEntry → Bool) (a : FSEntry)
    (l : List FSEntry) : a ∈ stableSort le l ↔ a ∈ l := by
  induction l with
  | nil => simp [stableSort]
  | cons b bs ih =>
    simp only [stableSort, mem_insertStable, ih, List.mem_cons]

theorem pairwise_insertStable (le : FSEntry → FSEntry → Bool)
    (htot : ∀ a b, le a b = true ∨ le b a = true)
    (htrans : ∀ a b c, le a b = true → le b c = true → le a c = true)
    (x : FSEntry) (l : List FSEntry)
    (h : l.Pairwise (fun a b => le a b = true)) :
    (insertStable le x l).Pairwise (fun a b => le a b = true) := by
  induction l with
  | nil => simp [insertStable]
  | cons b bs ih =>
    rw [List.pairwise_cons] at h
    obtain ⟨hb, hbs⟩ := h
    simp only [insertStable]
    split
    case isTrue hle =>
      refine List.Pairwise.cons ?_ (List.Pairwise.cons hb hbs)
      intro c hc
      rcases List.mem_cons.mp hc with rfl | hc
      · exact hle
      · exact htrans x b c hle (hb c hc)
    case isFalse hnle =>
      refine List.Pairwise.cons ?_ (ih hbs)
      intro c hc
      rcases (mem_insertStable le x c bs).mp hc with rfl | hc
      · rcases htot b c with h' | h'
        · exact h'
        · exact absurd h' (by simpa using hnle)
      · exact hb c hc

theorem pairwise_stableSort (le : FSEntry → FSEntry → Bool)
    (htot : ∀ a b, le a b = true ∨ le b a = true)
    (htrans : ∀ a b c, le a b = true → le b c = true → le a c = true)
    (l : List FSEntry) :
    (stableSort le l).Pairwise (fun a b => le a b = true) := by
  induction l with
  | nil => simp [stableSort]
  | cons b bs ih => exact pairwise_insertStable le htot htrans b _ ih

theorem charListLe_trans : ∀ (a b c : List Char),
    charListLe a b = true → charListLe b c = true → charListLe a c = true
  | [], _, _, _, _ => rfl
  | _ :: _, [], _, h, _ => by simp [charListLe] at h
  | _ :: _, _ :: _, [], _, h => by simp [charListLe] at h
  | a :: as, b :: bs, c :: cs, h1, h2 => by
    simp only [charListLe] at h1 h2 ⊢
    by_cases hab : a.toNat = b.toNat
    · rw [if_pos hab] at h1
      by_cases hbc : b.toNat = c.toNat
      · rw [if_pos hbc] at h2
        rw [if_pos (hab.trans hbc)]
        exact charListLe_trans as bs cs h1 h2
      · rw [if_neg hbc] at h2
        have h2' : b.toNat < c.toNat := of_decide_eq_true h2
        rw [if_neg (by omega)]
        exact decide_eq_true (by omega)
    · rw [if_neg hab] at h1
      have h1' : a.toNat < b.toNat := of_decide_eq_true h1
      by_cases hbc : b.toNat = c.toNat
      · rw [if_pos hbc] at h2
        rw [if_neg (by omega)]
        exact decide_eq_true (by omega)
      · rw [if_neg hbc] at h2
        have h2' : b.toNat < c.toNat := of_decide_eq_true h2
        rw [if_neg (by omega)]
        exact decide_eq_true (by omega)

theorem charListLe_total : ∀ (a b : List Char),
    charListLe a b = true ∨ charListLe b a = true
  | [], _ => Or.inl rfl
  | _ :: _, [] => Or.inr rfl
  | a :: as, b :: bs => by
    simp only [charListLe]
    by_cases hab : a.toNat = b.toNat
    · rw [if_pos hab, if_pos hab.symm]
      exact charListLe_total as bs
    · rw [if_neg hab, if_neg (fun h => hab h.symm)]
      rcases Nat.lt_or_ge a.toNat b.toNat with h | h
      · exact Or.inl (decide_eq_true h)
      · exact Or.inr (decide_eq_true (by omega))

theorem keyLe_trans (a b c : FSEntry) (h1 : keyLe a b = true)
    (h2 : keyLe b c = true) : keyLe a c = true :=
  charListLe_trans _ _ _ h1 h2

theorem keyLe_total (a b : FSEntry) : keyLe a b = true ∨ keyLe b a = true :=
  charListLe_total _ _

/-! Helper lemmas about paths and the enumerator. -/

theorem pathUnder_iff (root p : PyPath) :
    pathUnder root p = true ↔ ∃ t, p = root ++ t := by
  unfold pathUnder
  rw [beq_iff_eq]
  constructor
  · intro h
    refine ⟨p.drop root.length, ?_⟩
    conv_lhs => rw [← List.take_append_drop root.length p, h]
  · rintro ⟨t, rfl⟩
    exact List.take_left root t

theorem pathUnder_strict_iff (root p : PyPath) :
    (pathUnder root p = true ∧ p ≠ root) ↔ ∃ t, t ≠ [] ∧ p = root ++ t := by
  rw [pathUnder_iff]
  constructor
  · rintro ⟨⟨t, rfl⟩, hne⟩
    exact ⟨t, fun h => hne (by simp [h]), rfl⟩
  · rintro ⟨t, ht, rfl⟩
    exact ⟨⟨t, rfl⟩, by simpa using ht⟩

theorem mem_iter_source_files (fs : FS) (root : PyPath) (e : FSEntry) :
    e ∈ iter_source_files fs root ↔
      e ∈ fs ∧ pathUnder root e.path = true ∧ e.path ≠ root
        ∧ e.isDir = false ∧ excludedByParents root e.path = false
        ∧ is_allowed_file e.path = true := by
  unfold iter_source_files rglob
  rw [mem_stableSort]
  simp only [List.mem_filter, Bool.and_eq_true, Bool.not_eq_true',
    beq_eq_false_iff_ne, ne_eq]
  tauto

theorem excludedByParents_eq_false_iff (root p : PyPath) :
    excludedByParents root p = false ↔
      ∀ par ∈ pyParents p, par ≠ root → should_skip_dir par = false := by
  unfold excludedByParents
  rw [← Bool.not_eq_true, List.any_eq_true]
  simp only [Bool.and_eq_true, Bool.not_eq_true', beq_eq_false_iff_ne, ne_eq]
  constructor
  · intro h par hmem hne
    by_contra hskip
    exact h ⟨par, hmem, hne, by simpa using hskip⟩
  · rintro h ⟨par, hmem, hne, hskip⟩
    rw [h par hmem hne] at hskip
    exact Bool.false_ne_true hskip

/-! Helper lemmas about unlink. -/

theorem unlinkPath_idem (fs : FS) (p : PyPath) :
    unlinkPath (unlinkPath fs p) p = unlinkPath fs p := by
  simp [unlinkPath, List.filter_filter]

theorem unlinkPath_of_not_exists (fs : FS) (p : PyPath)
    (h : existsAny fs p = false) : unlinkPath fs p = fs := by
  rw [unlinkPath, List.filter_eq_self]
  intro e he
  simp only [Bool.not_eq_true', beq_eq_false_iff_ne, ne_eq]
  intro hp
  simp only [existsAny, List.any_eq_false] at h
  have := h e he
  simp [hp] at this

theorem unlinkPath_append (a b : FS) (p : PyPath) :
    unlinkPath (a ++ b) p = unlinkPath a p ++ unlinkPath b p := by
  simp [unlinkPath]

theorem unlinkPath_singleton (p : PyPath) (d : Bool) :
    unlinkPath [⟨p, d⟩] p = [] := by
  simp [unlinkPath]

theorem not_mem_unlinkPath (fs : FS) (p : PyPath) (e : FSEntry)
    (h : e ∈ unlinkPath fs p) : e.path ≠ p := by
  have := (List.mem_filter.mp h).2
  simpa using this

/-! Helper lemmas about the writer. -/

theorem relative_to_posix_isSome (root p : PyPath)
    (h : pathUnder root p = true) : (relative_to_posix p root).isSome := by
  unfold relative_to_posix
  rw [if_pos h]
  split <;> rfl

theorem entryBlock_eq (root : PyPath) (read : PyPath → ReadResult)
    (f : PyPath) (h : pathUnder root f = true) :
    entryBlock root read f = some (blockStr root read f) := by
  obtain ⟨rel, hrel⟩ :=
    Option.isSome_iff_exists.mp (relative_to_posix_isSome root f h)
  unfold entryBlock blockStr
  rw [hrel]
  simp

theorem write_merged_eq (root : PyPath) (read : PyPath → ReadResult) :
    ∀ (files : List PyPath), (∀ f ∈ files, pathUnder root f = true) →
      write_merged root read files =
        some (joinSep "\n" (files.map (blockStr root read)))
  | [], _ => rfl
  | [f], h => by
    rw [show write_merged root read [f] = entryBlock root read f from rfl,
      entryBlock_eq root read f (h f (by simp))]
    rfl
  | f :: g :: rest, h => by
    have ih := write_merged_eq root read (g :: rest)
      (fun x hx => h x (List.mem_cons_of_mem f hx))
    show (do
      let b ← entryBlock root read f
      let r ← write_merged root read (g :: rest)
      pure (b ++ "\n" ++ r)) = _
    rw [entryBlock_eq root read f (h f (List.mem_cons_self f _)), ih]
    rfl

/-! Helper lemmas about existence tests and `main`'s stages. -/

theorem existsAny_of_mem (fs : FS) (p : PyPath) (e : FSEntry)
    (he : e ∈ fs) (hp : e.path = p) : existsAny fs p = true := by
  simp only [existsAny, List.any_eq_true]
  exact ⟨e, he, by simp [hp]⟩

theorem existsDir_iff (fs : FS) (q : PyPath) :
    existsDir fs q = true ↔ ∃ e ∈ fs, e.path = q ∧ e.isDir = true := by
  simp [existsDir, List.any_eq_true, Bool.and_eq_true, beq_iff_eq]

theorem existsDir_append_file (a : FS) (p q : PyPath) :
    existsDir (a ++ [⟨p, false⟩]) q = existsDir a q := by
  simp [existsDir, List.any_append]

theorem existsAny_append_self (a : FS) (p : PyPath) (d : Bool) :
    existsAny (a ++ [⟨p, d⟩]) p = true := by
  simp [existsAny, List.any_append]

theorem mem_unlinkPath_of_ne (fs : FS) (p : PyPath) (e : FSEntry)
    (he : e ∈ fs) (hne : e.path ≠ p) : e ∈ unlinkPath fs p :=
  List.mem_filter.mpr ⟨he, by simp [hne]⟩

theorem parse_args_ok_fields (ci : CLIInput) (args : Args)
    (h : parse_args ci = Except.ok args) :
    args.all = ci.allFlag ∧ args.dir_name = ci.dirName
      ∧ args.output = ci.output.getD OUTPUT_FILENAME := by
  unfold parse_args at h
  split at h
  · exact absurd h (by simp)
  · split at h
    · exact absurd h (by simp)
    · obtain rfl := Except.ok.inj h
      exact ⟨rfl, rfl, rfl⟩

theorem mainRun_ok_inversion (fs : FS) (scriptDir : PyPath) (ci : CLIInput)
    (read : PyPath → ReadResult) (uk : Bool) (fs' : FS) (r : RunOutput)
    (h : mainRun fs scriptDir ci read uk = (fs', Except.ok r)) :
    ∃ args root,
      parse_args ci = Except.ok args
      ∧ args.output = ci.output.getD OUTPUT_FILENAME
      ∧ resolveRoot fs scriptDir args = Except.ok root
      ∧ r.merged = (iter_source_files
          (if existsAny fs (scriptDir ++ [args.output]) && uk then
            unlinkPath fs (scriptDir ++ [args.output]) else fs) root).map
          FSEntry.path
      ∧ write_merged root read r.merged = some r.doc
      ∧ fs' = afterWrite
          (if existsAny fs (scriptDir ++ [args.output]) && uk then
            unlinkPath fs (scriptDir ++ [args.output]) else fs)
          (scriptDir ++ [args.output])
      ∧ r.summary = "[완료] " ++ toString r.merged.length
          ++ "개 파일을 병합했습니다 -> " ++ pathStr (scriptDir ++ [args.output]) := by
  unfold mainRun at h
  cases hp : parse_args ci with
  | error e => rw [hp] at h; exact absurd h (by simp)
  | ok args =>
    rw [hp] at h
    dsimp only at h
    cases hr : resolveRoot fs scriptDir args with
    | error e => rw [hr] at h; exact absurd h (by simp)
    | ok root =>
      rw [hr] at h
      dsimp only at h
      refine ⟨args, root, rfl, (parse_args_ok_fields ci args hp).2.2, hr,
        ?_⟩
      simp only [runWithRoot] at h
      split at h
      · exact absurd h (by simp)
      case _ doc heq =>
        rw [Prod.mk.injEq] at h
        obtain ⟨h1, h2⟩ := h
        obtain rfl := Except.ok.inj h2
        exact ⟨rfl, heq, h1.symm, rfl⟩

/-! Claim theorems. -/

/-- C1 (counterexample): the claim's selection criterion — only directory
names strictly between the file and the root are consulted, never
directories above the root — disagrees with the code. With the root at
`/out/proj`, the file `/out/proj/a.py` has no excluded name strictly
between it and the root, so the claim selects it; yet `iter_source_files`
consults the ancestor `/out` above the root, whose name `out` is in
`EXCLUDE_DIRS`, and drops the file. -/
theorem c1_counterexample :
    claimSelected
        [⟨["out"], true⟩, ⟨["out", "proj"], true⟩,
         ⟨["out", "proj", "a.py"], false⟩]
        ["out", "proj"] ⟨["out", "proj", "a.py"], false⟩ = true
    ∧ (⟨["out", "proj", "a.py"], false⟩ : FSEntry) ∉
        iter_source_files
          [⟨["out"], true⟩, ⟨["out", "proj"], true⟩,
           ⟨["out", "proj", "a.py"], false⟩]
          ["out", "proj"] := by
  decide

/-- C1 (amended): an entry is returned by the enumerator iff it is a file
entry of the snapshot strictly below the root that passes the
extension/bare-name test and has no excluded directory name among its
ancestors other than the root itself — including ancestors above the
root, which the code does consult. -/
theorem c1_enumerator_membership (fs : FS) (root : PyPath) (e : FSEntry) :
    e ∈ iter_source_files fs root ↔
      e ∈ fs ∧ (∃ t, t ≠ [] ∧ e.path = root ++ t) ∧ e.isDir = false
        ∧ (∀ par ∈ pyParents e.path, par ≠ root → should_skip_dir par = false)
        ∧ is_allowed_file e.path = true := by
  rw [mem_iter_source_files, excludedByParents_eq_false_iff]
  constructor
  · rintro ⟨h1, h2, h3, h4, h5, h6⟩
    exact ⟨h1, (pathUnder_strict_iff root e.path).mp ⟨h2, h3⟩, h4, h5, h6⟩
  · rintro ⟨h1, h2, h4, h5, h6⟩
    obtain ⟨hu, hne⟩ := (pathUnder_strict_iff root e.path).mpr h2
    exact ⟨h1, hu, hne, h4, h5, h6⟩

/-- C3: for every FileEntry list whose paths lie under the root, the
merger writes exactly, for each entry, a header line `-- <relative-path>`,
one blank line, and the trailing-trimmed content followed by exactly one
newline, with exactly one blank line (the `"\n"` separator joining blocks
that end in `"\n"`) between consecutive entries and nothing after the
final entry. -/
theorem c3_merged_format (root : PyPath) (read : PyPath → ReadResult)
    (files : List PyPath) (hne : files ≠ [])
    (h : ∀ f ∈ files, pathUnder root f = true) :
    write_merged root read files =
      some (joinSep "\n" (files.map (blockStr root read))) :=
  write_merged_eq root read files h

/-- C3 witness: a two-file merge, evaluated to its literal bytes. -/
theorem c3_witness :
    (([["r", "a.py"], ["r", "sub", "b.txt"]] : List PyPath) ≠ [])
    ∧ write_merged ["r"]
        (fun p => if p = ["r", "a.py"] then ReadResult.ok "print(1)\n\n"
                  else ReadResult.err "boom")
        [["r", "a.py"], ["r", "sub", "b.txt"]] =
      some "-- a.py\n\nprint(1)\n\n-- sub/b.txt\n\n<<ERROR READING FILE: boom>>\n" := by
  refine ⟨by decide, ?_⟩
  rw [c3_merged_format ["r"]
    (fun p => if p = ["r", "a.py"] then ReadResult.ok "print(1)\n\n"
              else ReadResult.err "boom")
    [["r", "a.py"], ["r", "sub", "b.txt"]] (by decide) (by decide)]
  rfl

/-- C4: the enumerator's output is sorted ascending by case-insensitive
code-point comparison of the full path string (`keyLe`), and on a root
holding `a.py` and `sub/b.txt` it returns `a.py`'s entry first. -/
theorem c4_output_sorted (fs : FS) (root : PyPath) :
    (iter_source_files fs root).Pairwise (fun a b => keyLe a b = true)
    ∧ (iter_source_files
        [⟨["r", "sub"], true⟩, ⟨["r", "sub", "b.txt"], false⟩,
         ⟨["r", "a.py"], false⟩]
        ["r"]).map FSEntry.path = [["r", "a.py"], ["r", "sub", "b.txt"]] := by
  constructor
  · exact pairwise_stableSort keyLe keyLe_total keyLe_trans _
  · decide

/-- C5: the allowlist test accepts a path iff its filename is in the
bare-name set or its lowercased extension is in the extension set; in
particular `Makefile` is accepted and `img.png` is rejected. -/
theorem c5_allowlist_test (p : PyPath) :
    (is_allowed_file p = true ↔
      pathName p ∈ WHITELIST_BARE_NAMES
        ∨ lowerStr (pySuffix (pathName p)) ∈ WHITELIST_EXTS)
    ∧ is_allowed_file ["r", "Makefile"] = true
    ∧ is_allowed_file ["r", "img.png"] = false := by
  refine ⟨?_, by decide, by decide⟩
  unfold is_allowed_file
  by_cases h : pathName p ∈ WHITELIST_BARE_NAMES
  · simp [h]
  · simp [h]

/-- C6: reading a selected file never aborts the run: the decode policy
with replacement always yields text (undecodable units become the
replacement character), any other read error is substituted by the
literal diagnostic string naming the error, and the merger still
produces a complete document for every selected file. -/
theorem c6_read_failures_nonfatal (root : PyPath)
    (read : PyPath → ReadResult) (files : List PyPath)
    (h : ∀ f ∈ files, pathUnder root f = true) :
    (∃ doc, write_merged root read files = some doc)
    ∧ (∀ units, read_text_replace units =
        ReadResult.ok (String.mk (units.map (fun u => u.getD REPLACEMENT_CHAR))))
    ∧ (∀ f e, read f = ReadResult.err e →
        entryText read f = "<<ERROR READING FILE: " ++ e ++ ">>") := by
  refine ⟨⟨_, write_merged_eq root read files h⟩, fun _ => rfl, ?_⟩
  intro f e hf
  simp [entryText, hf]

/-- C6 witness: a run over one unreadable file still yields a document. -/
theorem c6_witness :
    (∃ doc, write_merged ["r"] (fun _ => ReadResult.err "Permission denied")
        [["r", "x.py"]] = some doc)
    ∧ (∀ units, read_text_replace units =
        ReadResult.ok (String.mk (units.map (fun u => u.getD REPLACEMENT_CHAR))))
    ∧ (∀ f e, (fun _ => ReadResult.err "Permission denied") f = ReadResult.err e →
        entryText (fun _ => ReadResult.err "Permission denied") f =
          "<<ERROR READING FILE: " ++ e ++ ">>") :=
  c6_read_failures_nonfatal ["r"] (fun _ => ReadResult.err "Permission denied")
    [["r", "x.py"]] (by decide)

/-- C10: every path the enumerator returns lies strictly beneath the scan
root, so `relative_to` is total on it and `write_merged` never fails on a
list produced by `iter_source_files` with the same root. -/
theorem c10_write_total_on_enumerated (fs : FS) (root : PyPath)
    (read : PyPath → ReadResult) :
    (∀ p ∈ (iter_source_files fs root).map FSEntry.path,
        pathUnder root p = true ∧ p ≠ root)
    ∧ (write_merged root read
        ((iter_source_files fs root).map FSEntry.path)).isSome = true := by
  have hall : ∀ p ∈ (iter_source_files fs root).map FSEntry.path,
      pathUnder root p = true ∧ p ≠ root := by
    intro p hp
    rw [List.mem_map] at hp
    obtain ⟨e, he, rfl⟩ := hp
    have h := (mem_iter_source_files fs root e).mp he
    exact ⟨h.2.1, h.2.2.1⟩
  refine ⟨hall, ?_⟩
  rw [write_merged_eq root read _ (fun f hf => (hall f hf).1)]
  rfl

/-- C2 (counterexample): the claim promises the output file is never
among the FileEntry list, but the pre-scan deletion is best-effort: when
the `unlink` of a pre-existing `document.txt` fails (the exception is
swallowed), the scan still sees it and merges it. -/
theorem c2_counterexample :
    (mainRun [⟨["document.txt"], false⟩] [] ⟨true, none, none⟩
        (fun _ => ReadResult.ok "x") false).2.map
      (fun rr => decide (["document.txt"] ∈ rr.merged)) = Except.ok true := by
  rfl

/-- C2 (amended): provided the swallowed deletion of a pre-existing
output file succeeds, the output file is never among the FileEntry list
— and since the scan is computed before writing begins, the freshly
written output cannot appear in it. -/
theorem c2_output_never_merged (fs : FS) (scriptDir : PyPath)
    (ci : CLIInput) (read : PyPath → ReadResult) (fs' : FS) (r : RunOutput)
    (h : mainRun fs scriptDir ci read true = (fs', Except.ok r)) :
    scriptDir ++ [ci.output.getD OUTPUT_FILENAME] ∉ r.merged := by
  obtain ⟨args, root, hp, hofld, hr, hmerged, hwrite, hfs', hsum⟩ :=
    mainRun_ok_inversion fs scriptDir ci read true fs' r h
  rw [← hofld]
  intro hmem
  rw [hmerged, List.mem_map] at hmem
  obtain ⟨e, he, hep⟩ := hmem
  have hin := ((mem_iter_source_files _ root e).mp he).1
  by_cases hex : existsAny fs (scriptDir ++ [args.output]) = true
  · rw [if_pos (by simp [hex])] at hin
    exact not_mem_unlinkPath _ _ _ hin hep
  · have hex' : existsAny fs (scriptDir ++ [args.output]) = false := by
      simpa using hex
    rw [if_neg (by simp [hex'])] at hin
    exact hex (existsAny_of_mem fs _ e hin hep)

/-- C2 witness: a run on an empty tree merges nothing, in particular not
the output path. -/
theorem c2_witness :
    ([] : PyPath) ++ [(none : Option String).getD OUTPUT_FILENAME] ∉
      (RunOutput.mk [] "" "[완료] 0개 파일을 병합했습니다 -> /document.txt").merged :=
  c2_output_never_merged [] [] ⟨true, none, none⟩ (fun _ => ReadResult.ok "")
    [⟨["document.txt"], false⟩]
    ⟨[], "", "[완료] 0개 파일을 병합했습니다 -> /document.txt"⟩ rfl

/-- C7 (counterexample): rerunning is not unconditionally idempotent.
A first `-a` run on an empty tree writes the empty document and leaves
`document.txt` behind; rerunning with identical arguments on exactly
that tree, with the swallowed deletion of the leftover output failing —
the same best-effort `unlink` that corrected C2 — merges the leftover
`document.txt` itself, and the second document differs byte-for-byte
from the first. The read oracle is consistent with what the first run
wrote (the file's content is the empty string). -/
theorem c7_counterexample :
    mainRun [] [] ⟨true, none, none⟩ (fun _ => ReadResult.ok "") true =
      ([⟨["document.txt"], false⟩],
       Except.ok ⟨[], "", "[완료] 0개 파일을 병합했습니다 -> /document.txt"⟩)
    ∧ (mainRun [⟨["document.txt"], false⟩] [] ⟨true, none, none⟩
        (fun _ => ReadResult.ok "") false).2.map RunOutput.doc =
      Except.ok "-- document.txt\n\n\n"
    ∧ ("-- document.txt\n\n\n" : String) ≠ "" :=
  ⟨rfl, rfl, by decide⟩

/-- C7 (amended): provided the second run's swallowed deletion of the
leftover output file succeeds (and no directory entry sits at the output
path), running twice with identical arguments on an unchanged source
tree yields identical output document content, even though the first
run's output file exists when the second run starts. -/
theorem c7_idempotent (fs : FS) (scriptDir : PyPath) (ci : CLIInput)
    (read : PyPath → ReadResult) (fs' : FS) (r : RunOutput)
    (hout : existsDir fs (scriptDir ++ [ci.output.getD OUTPUT_FILENAME]) = false)
    (h : mainRun fs scriptDir ci read true = (fs', Except.ok r)) :
    (mainRun fs' scriptDir ci read true).2.map RunOutput.doc =
      Except.ok r.doc := by
  obtain ⟨args, root, hp, hofld, hr, hmerged, hwrite, hfs', hsum⟩ :=
    mainRun_ok_inversion fs scriptDir ci read true fs' r h
  rw [← hofld] at hout
  have hfs1clean :
      unlinkPath (if existsAny fs (scriptDir ++ [args.output]) && true then
          unlinkPath fs (scriptDir ++ [args.output]) else fs)
        (scriptDir ++ [args.output]) =
      (if existsAny fs (scriptDir ++ [args.output]) && true then
          unlinkPath fs (scriptDir ++ [args.output]) else fs) := by
    by_cases hex : existsAny fs (scriptDir ++ [args.output]) = true
    · rw [if_pos (by simp [hex]), unlinkPath_idem]
    · have hex' : existsAny fs (scriptDir ++ [args.output]) = false := by
        simpa using hex
      rw [if_neg (by simp [hex']), unlinkPath_of_not_exists _ _ hex']
  have hr2 : resolveRoot fs' scriptDir args = Except.ok root := by
    unfold resolveRoot at hr ⊢
    by_cases hall : args.all = true
    · rw [if_pos hall] at hr ⊢; exact hr
    · rw [if_neg hall] at hr ⊢
      split at hr
      next hdir =>
        obtain rfl := Except.ok.inj hr
        obtain ⟨e2, he2, he2p, he2d⟩ := (existsDir_iff fs _).mp hdir
        have hne : e2.path ≠ scriptDir ++ [args.output] := by
          intro hcontra
          rw [(existsDir_iff fs _).mpr ⟨e2, he2, hcontra, he2d⟩] at hout
          exact Bool.noConfusion hout
        have he2' : e2 ∈ fs' := by
          rw [hfs']
          unfold afterWrite
          refine List.mem_append_left _ (mem_unlinkPath_of_ne _ _ _ ?_ hne)
          by_cases hex : existsAny fs (scriptDir ++ [args.output]) = true
          · rw [if_pos (by simp [hex])]
            exact mem_unlinkPath_of_ne _ _ _ he2 hne
          · have hex' : existsAny fs (scriptDir ++ [args.output]) = false := by
              simpa using hex
            rw [if_neg (by simp [hex'])]
            exact he2
        rw [if_pos ((existsDir_iff fs' _).mpr ⟨e2, he2', he2p, he2d⟩)]
      next => exact absurd hr (by simp)
  have hex2 : existsAny fs' (scriptDir ++ [args.output]) = true := by
    rw [hfs']
    unfold afterWrite
    exact existsAny_append_self _ _ _
  have hscan : unlinkPath fs' (scriptDir ++ [args.output]) =
      (if existsAny fs (scriptDir ++ [args.output]) && true then
        unlinkPath fs (scriptDir ++ [args.output]) else fs) := by
    rw [hfs']
    unfold afterWrite
    rw [unlinkPath_append, unlinkPath_singleton, List.append_nil, hfs1clean,
      hfs1clean]
  simp only [mainRun, hp, hr2]
  simp only [runWithRoot]
  rw [if_pos (show (existsAny fs' (scriptDir ++ [args.output]) && true) = true
    by simp [hex2])]
  rw [hscan, ← hmerged, hwrite]
  rfl

/-- C7 witness: rerunning on the tree left by a first run over an empty
tree reproduces the empty document. -/
theorem c7_witness :
    (mainRun [⟨["document.txt"], false⟩] [] ⟨true, none, none⟩
        (fun _ => ReadResult.ok "") true).2.map RunOutput.doc =
      Except.ok "" :=
  c7_idempotent [] [] ⟨true, none, none⟩ (fun _ => ReadResult.ok "")
    [⟨["document.txt"], false⟩]
    ⟨[], "", "[완료] 0개 파일을 병합했습니다 -> /document.txt"⟩ (by decide) rfl

/-- C8 (counterexample): the success summary is a fixed Korean sentence,
not a line of the literal form `<count> files merged -> <output path>`:
on an empty tree the run succeeds and prints
`[완료] 0개 파일을 병합했습니다 -> /document.txt`. -/
theorem c8_counterexample :
    (mainRun [] [] ⟨true, none, none⟩ (fun _ => ReadResult.ok "") true).2.map
        RunOutput.summary =
      Except.ok "[완료] 0개 파일을 병합했습니다 -> /document.txt"
    ∧ "[완료] 0개 파일을 병합했습니다 -> /document.txt" ≠
        "0 files merged -> /document.txt" :=
  ⟨rfl, by decide⟩

/-- C8 (amended): every successful run — including with zero matches —
terminates normally having created the output file (with empty content
when zero entries were written) and reports a one-line summary carrying
the merged-file count and the output path, of the literal form
`[완료] <count>개 파일을 병합했습니다 -> <output path>`. -/
theorem c8_success_summary (fs : FS) (scriptDir : PyPath) (ci : CLIInput)
    (read : PyPath → ReadResult) (uk : Bool) (fs' : FS) (r : RunOutput)
    (h : mainRun fs scriptDir ci read uk = (fs', Except.ok r)) :
    (⟨scriptDir ++ [ci.output.getD OUTPUT_FILENAME], false⟩ : FSEntry) ∈ fs'
    ∧ r.summary = "[완료] " ++ toString r.merged.length
        ++ "개 파일을 병합했습니다 -> "
        ++ pathStr (scriptDir ++ [ci.output.getD OUTPUT_FILENAME])
    ∧ (r.merged = [] → r.doc = "") := by
  obtain ⟨args, root, hp, hofld, hr, hmerged, hwrite, hfs', hsum⟩ :=
    mainRun_ok_inversion fs scriptDir ci read uk fs' r h
  rw [← hofld]
  refine ⟨?_, hsum, ?_⟩
  · rw [hfs']
    unfold afterWrite
    exact List.mem_append_right _ (by simp)
  · intro hnil
    rw [hnil] at hwrite
    have h0 : some "" = some r.doc := hwrite
    exact (Option.some.inj h0).symm

/-- C8 witness: the zero-match run creates an empty document and reports
count 0 with the output path. -/
theorem c8_witness :
    (⟨["document.txt"], false⟩ : FSEntry) ∈ ([⟨["document.txt"], false⟩] : FS)
    ∧ "[완료] 0개 파일을 병합했습니다 -> /document.txt" =
        "[완료] " ++ toString (List.length ([] : List PyPath))
          ++ "개 파일을 병합했습니다 -> " ++ pathStr ([] ++ ["document.txt"])
    ∧ (([] : List PyPath) = [] → "" = "") :=
  c8_success_summary [] [] ⟨true, none, none⟩ (fun _ => ReadResult.ok "") true
    [⟨["document.txt"], false⟩]
    ⟨[], "", "[완료] 0개 파일을 병합했습니다 -> /document.txt"⟩ rfl

/-- C9: exactly one of `-a`/`-d` must be given (neither or both is a
usage error reported with the filesystem untouched), and in `-d` mode
the tool joins its location with the given name and fails with a
user-facing error — before any scan or output mutation — when no
directory exists there. -/
theorem c9_mode_and_target_validation (fs : FS) (scriptDir : PyPath)
    (read : PyPath → ReadResult) (uk : Bool) :
    (∀ name out, mainRun fs scriptDir ⟨true, some name, out⟩ read uk =
        (fs, Except.error
          "usage: argument -d/--dir: not allowed with argument -a/--all"))
    ∧ (∀ out, mainRun fs scriptDir ⟨false, none, out⟩ read uk =
        (fs, Except.error
          "usage: one of the arguments -a/--all -d/--dir is required"))
    ∧ (∀ name out, existsDir fs (scriptDir ++ [name]) = false →
        mainRun fs scriptDir ⟨false, some name, out⟩ read uk =
          (fs, Except.error ("[에러] 디렉토리를 찾을 수 없습니다: "
            ++ pathStr (scriptDir ++ [name])))) := by
  refine ⟨fun name out => rfl, fun out => rfl, fun name out hdir => ?_⟩
  simp [mainRun, parse_args, resolveRoot, hdir]

/-- C9 witness: pointing `-d` at a missing directory aborts with the
target-not-found error and leaves the (empty) filesystem untouched. -/
theorem c9_witness :
    existsDir ([] : FS) (([] : PyPath) ++ ["x"]) = false
    ∧ mainRun [] [] ⟨false, some "x", none⟩ (fun _ => ReadResult.ok "") true =
        ([], Except.error ("[에러] 디렉토리를 찾을 수 없습니다: "
          ++ pathStr ([] ++ ["x"]))) :=
  ⟨by decide, (c9_mode_and_target_validation [] []
    (fun _ => ReadResult.ok "") true).2.2 "x" none (by decide)⟩

end MergeSources
